import Mathlib

/-!
Shallow embedding of the Habr InfoSec RSS bot (`main.go`): the dedup/expiry
cache, the feed-fetch pipeline, the summary normalizer and the rate-limited
message handler.  Times are integers (nanoseconds, as in Go durations);
Go maps are modelled as total functions into `Option`; each lock-protected
cache method is one atomic Lean function taking the current time explicitly
(the Go code reads `time.Now()` inside the critical section).
-/

namespace HabrBot

/-- One nanosecond-count per hour, matching Go `time.Hour`. -/
def nsPerHour : Int := 3600000000000

/-- One nanosecond-count per second, matching Go `time.Second`. -/
def nsPerSec : Int := 1000000000

/-- The cache-relevant state of `Bot` (`main.go` lines 25-34): the
`articles` map, the `articleTimestamps` map and the fixed `articleExpiry`
retention duration.  A Go map lookup that misses returns the zero value,
so absent keys are `none` and `Option.getD 0` models the zero `time.Time`. -/
structure BotCache where
  articles : String → Option Bool
  articleTimestamps : String → Option Int
  articleExpiry : Int

/-- The cache part of `NewBot` (`main.go` lines 42-52): both maps empty,
retention fixed at 24 hours. -/
def newBotCache : BotCache :=
  ⟨fun _ => none, fun _ => none, 24 * nsPerHour⟩

/-- `wasArticleSent` (`main.go` lines 104-120): under the lock, if the guid
maps to `true` and the entry is older than `articleExpiry`, delete it from
both maps and return `false`; if unexpired return `true`; otherwise `false`.
`time.Since(t)` is `now - t`. -/
def wasArticleSent (s : BotCache) (now : Int) (guid : String) : Bool × BotCache :=
  match s.articles guid with
  | some true =>
    if now - ((s.articleTimestamps guid).getD 0) > s.articleExpiry then
      (false,
        ⟨fun k => if k = guid then none else s.articles k,
         fun k => if k = guid then none else s.articleTimestamps k,
         s.articleExpiry⟩)
    else
      (true, s)
  | _ => (false, s)

/-- `markArticleAsSent` (`main.go` lines 123-129): under the lock, set
`articles[guid] = true` and `articleTimestamps[guid] = now`. -/
def markArticleAsSent (s : BotCache) (now : Int) (guid : String) : BotCache :=
  ⟨fun k => if k = guid then some true else s.articles k,
   fun k => if k = guid then some now else s.articleTimestamps k,
   s.articleExpiry⟩

/-- `cleanupExpiredArticles` (`main.go` lines 132-143): under the lock,
delete from both maps every guid whose timestamp is older than
`articleExpiry`.  The Go loop ranges over `articleTimestamps`, so a key
absent from that map is untouched. -/
def cleanupExpiredArticles (s : BotCache) (now : Int) : BotCache :=
  ⟨fun k =>
     match s.articleTimestamps k with
     | some t => if now - t > s.articleExpiry then none else s.articles k
     | none => s.articles k,
   fun k =>
     match s.articleTimestamps k with
     | some t => if now - t > s.articleExpiry then none else some t
     | none => none,
   s.articleExpiry⟩

/-! ## Summary normalizer (`trimSummary`, `main.go` lines 272-291)

Go strings are byte slices; `strings.ReplaceAll` and `strings.Fields` work
on UTF-8 text, and `len` / `summary[:200]` count and slice raw bytes.  The
replaced patterns are pure-ASCII, and an ASCII byte never occurs inside a
multi-byte UTF-8 character, so replacement and field-splitting are modelled
at the character (rune) level, while the final length test and truncation
are modelled on the UTF-8 byte encoding, exactly as Go performs them. -/

/-- Go `unicode.IsSpace`: the Latin-1 space characters plus the Unicode
White_Space code points. -/
def isGoSpace (c : Char) : Bool :=
  c.toNat = 32 || c.toNat = 9 || c.toNat = 10 || c.toNat = 11 ||
  c.toNat = 12 || c.toNat = 13 || c.toNat = 0x85 || c.toNat = 0xA0 ||
  c.toNat = 0x1680 || (0x2000 ≤ c.toNat && c.toNat ≤ 0x200A) ||
  c.toNat = 0x2028 || c.toNat = 0x2029 || c.toNat = 0x202F ||
  c.toNat = 0x205F || c.toNat = 0x3000

/-- UTF-8 encoding of one character, as its list of bytes. -/
def utf8Bytes (c : Char) : List Nat :=
  let n := c.toNat
  if n < 0x80 then [n]
  else if n < 0x800 then [0xC0 + n / 64, 0x80 + n % 64]
  else if n < 0x10000 then
    [0xE0 + n / 4096, 0x80 + (n / 64) % 64, 0x80 + n % 64]
  else
    [0xF0 + n / 262144, 0x80 + (n / 4096) % 64, 0x80 + (n / 64) % 64,
     0x80 + n % 64]

/-- UTF-8 encoding of a string (list of characters) as its byte list;
`utf8Encode s` has length `len(s)` in the Go sense. -/
def utf8Encode (s : List Char) : List Nat :=
  (s.map utf8Bytes).flatten

/-- Does `pat` occur as a contiguous substring of `s`? -/
def occursIn (pat : List Char) : List Char → Bool
  | [] => pat.isEmpty
  | c :: rest => pat.isPrefixOf (c :: rest) || occursIn pat rest

/-- Worker for `replaceAll`: scan left to right, replacing each
non-overlapping occurrence of `old` by `new` (the Go `strings.Replace`
loop).  The fuel starts at the list length and dominates it, so the
first matched pattern position always advances. -/
def replGo (old new : List Char) : Nat → List Char → List Char
  | _, [] => []
  | 0, s => s
  | fuel + 1, c :: rest =>
    if old.isPrefixOf (c :: rest) then
      new ++ replGo old new fuel (List.drop (old.length - 1) rest)
    else
      c :: replGo old new fuel rest

/-- Go `strings.ReplaceAll(s, old, new)` for a non-empty pattern. -/
def replaceAll (s old new : List Char) : List Char :=
  replGo old new s.length s

/-- Worker for `fields`: `acc` holds the current field, reversed. -/
def fieldsAux : List Char → List Char → List (List Char)
  | [], acc => if acc.isEmpty then [] else [acc.reverse]
  | c :: rest, acc =>
    if isGoSpace c then
      if acc.isEmpty then fieldsAux rest []
      else acc.reverse :: fieldsAux rest []
    else
      fieldsAux rest (c :: acc)

/-- Go `strings.Fields`: the maximal runs of non-space characters. -/
def fields (s : List Char) : List (List Char) :=
  fieldsAux s []

/-- `trimSummary` (`main.go` lines 272-291): replace the seven fixed tags,
collapse whitespace via `strings.Join(strings.Fields(s), " ")`, then if the
byte length exceeds 200, keep the first 200 bytes and append `"..."`.
The result is the UTF-8 byte list of the returned Go string. -/
def trimSummary (summary : List Char) : List Nat :=
  let s1 := replaceAll summary "<br>".data " ".data
  let s2 := replaceAll s1 "<p>".data " ".data
  let s3 := replaceAll s2 "</p>".data " ".data
  let s4 := replaceAll s3 "<strong>".data "".data
  let s5 := replaceAll s4 "</strong>".data "".data
  let s6 := replaceAll s5 "<em>".data "".data
  let s7 := replaceAll s6 "</em>".data "".data
  let joined := List.intercalate " ".data (fields s7)
  let bs := utf8Encode joined
  if bs.length > 200 then bs.take 200 ++ utf8Encode "...".data else bs

/-! ## Feed pipeline (`getHabrInfoSecFeed`, `main.go` lines 228-270) -/

/-- The fields of a parsed feed entry (`gofeed.Item`) read by the pipeline.
The description is kept as a character list for `trimSummary`;
`publishedParsed` is `none` when the source date is absent or unparseable. -/
structure FeedItem where
  guid : String
  title : String
  link : String
  description : List Char
  publishedParsed : Option Int

/-- `Article` (`main.go` lines 18-23); the summary is the UTF-8 byte list
produced by `trimSummary`. -/
structure Article where
  title : String
  link : String
  summary : List Nat
  date : Int

/-- Article construction (`main.go` lines 247-259): the publication date
defaults to the current time when the source omits it. -/
def mkArticle (now : Int) (item : FeedItem) : Article :=
  ⟨item.title, item.link, trimSummary item.description,
   item.publishedParsed.getD now⟩

/-- The per-entry loop of `getHabrInfoSecFeed` (`main.go` lines 238-267):
skip entries whose guid was already sent, otherwise mark the guid and
append the built article, stopping once 10 articles are collected.
The cache state is threaded through every (atomic) cache call. -/
def processItems (now : Int) : BotCache → List FeedItem → List Article →
    List Article × BotCache
  | s, [], acc => (acc, s)
  | s, item :: rest, acc =>
    let res := wasArticleSent s now item.guid
    if res.1 then
      processItems now res.2 rest acc
    else
      let s2 := markArticleAsSent res.2 now item.guid
      let acc2 := acc ++ [mkArticle now item]
      if acc2.length ≥ 10 then (acc2, s2)
      else processItems now s2 rest acc2

/-- `getHabrInfoSecFeed` (`main.go` lines 228-270): the outcome of
`fp.ParseURL` is passed in as `fetched`; a parse/network error is returned
as-is with the cache untouched, otherwise the entry loop runs. -/
def getHabrInfoSecFeed (s : BotCache) (now : Int)
    (fetched : Except String (List FeedItem)) :
    Except String (List Article) × BotCache :=
  match fetched with
  | Except.error e => (Except.error e, s)
  | Except.ok items =>
    let r := processItems now s items []
    (Except.ok r.1, r.2)

/-- Marking a list of items in order: the cache effect of one pipeline
pass over entirely-new entries. -/
def markAllSent (now : Int) (s : BotCache) (l : List FeedItem) : BotCache :=
  l.foldl (fun s i => markArticleAsSent s now i.guid) s

/-! ## Rate limiter and message handler (`main.go` lines 42-52, 83-101) -/

/-- Modelled from the spec: the token-bucket rate limiter of §4.4
(`golang.org/x/time/rate`, whose source is not part of this repository).
One token is refilled per second, burst size 1; the bucket starts full.
Tokens are counted in units of 10⁻⁹ token so that refill is one unit per
nanosecond; `last` is the time of the previous update. -/
structure Limiter where
  tokens : Int
  last : Int

/-- Modelled from the spec: a freshly constructed 1-per-second, burst-1
limiter (`rate.NewLimiter(rate.Every(1*time.Second), 1)` in `NewBot`),
starting with a full bucket at construction time `t0`. -/
def newLimiter (t0 : Int) : Limiter :=
  ⟨nsPerSec, t0⟩

/-- Modelled from the spec: `allow()` refills elapsed-time tokens up to the
burst cap, then consumes one whole token if available, else denies. -/
def allow (l : Limiter) (now : Int) : Bool × Limiter :=
  let t := min nsPerSec (l.tokens + (now - l.last))
  if t ≥ nsPerSec then (true, ⟨t - nsPerSec, now⟩) else (false, ⟨t, now⟩)

/-- The replies `handleMessage` can produce. -/
inductive Reply
  | welcome
  | help
  | feed
deriving DecidableEq

/-- The command dispatch of `handleMessage` (`main.go` lines 88-100). -/
def dispatchCommand (text : String) : Reply :=
  let t := text.trim
  if t = "/start" then Reply.welcome
  else if t = "/help" then Reply.help
  else if t = "/infosec" || t = "/security" then Reply.feed
  else Reply.welcome

/-- `handleMessage` (`main.go` lines 83-101): a trigger denied by the
limiter is dropped silently — no reply, no error, no queuing. -/
def handleMessage (l : Limiter) (now : Int) (text : String) :
    Option Reply × Limiter :=
  let r := allow l now
  if r.1 then (some (dispatchCommand text), r.2) else (none, r.2)

/-! ## Two racing pipeline cycles on one unseen id

Each Go cache method runs under the mutex, so an interleaved execution of
two concurrent cycles is a sequence of atomic `wasArticleSent` /
`markArticleAsSent` steps.  For one feed entry, each cycle's program order
is: check the guid, and if the check returned false, mark it (and emit the
article).  A schedule says whose next step runs. -/

/-- Which cycle takes the next atomic step. -/
inductive Who
  | A
  | B

/-- State of the two racing cycles: the shared cache, each cycle's program
counter (0 = before its check, 1 = before its mark, 2 = done) and the
result its `wasArticleSent` call returned (`some false` means the cycle
classified the id as new and emits the article). -/
structure RaceState where
  cache : BotCache
  pcA : Nat
  pcB : Nat
  resA : Option Bool
  resB : Option Bool

/-- One atomic step of the chosen cycle, on the shared guid `g`; cycle A
reads clock `tA`, cycle B reads `tB`. -/
def stepRace (g : String) (tA tB : Int) (st : RaceState) (w : Who) :
    RaceState :=
  match w with
  | Who.A =>
    if st.pcA = 0 then
      let r := wasArticleSent st.cache tA g
      ⟨r.2, if r.1 then 2 else 1, st.pcB, some r.1, st.resB⟩
    else if st.pcA = 1 then
      ⟨markArticleAsSent st.cache tA g, 2, st.pcB, st.resA, st.resB⟩
    else st
  | Who.B =>
    if st.pcB = 0 then
      let r := wasArticleSent st.cache tB g
      ⟨r.2, st.pcA, if r.1 then 2 else 1, st.resA, some r.1⟩
    else if st.pcB = 1 then
      ⟨markArticleAsSent st.cache tB g, st.pcA, 2, st.resA, st.resB⟩
    else st

/-- Run a schedule of interleaved steps from cache state `s0`. -/
def runRace (g : String) (tA tB : Int) (s0 : BotCache) (sched : List Who) :
    RaceState :=
  sched.foldl (stepRace g tA tB) ⟨s0, 0, 0, none, none⟩

/-! ## Basic cache lemmas -/

theorem wasArticleSent_of_none (s : BotCache) (now : Int) (g : String)
    (h : s.articles g = none) : wasArticleSent s now g = (false, s) := by
  unfold wasArticleSent
  rw [h]

theorem wasArticleSent_of_unexpired (s : BotCache) (now t : Int) (g : String)
    (h1 : s.articles g = some true) (h2 : s.articleTimestamps g = some t)
    (h3 : now - t ≤ s.articleExpiry) : wasArticleSent s now g = (true, s) := by
  unfold wasArticleSent
  rw [h1, h2]
  simp only [Option.getD_some]
  rw [if_neg (by omega)]

theorem markArticleAsSent_articles (s : BotCache) (now : Int) (g k : String) :
    (markArticleAsSent s now g).articles k =
      if k = g then some true else s.articles k := rfl

theorem markArticleAsSent_timestamps (s : BotCache) (now : Int) (g k : String) :
    (markArticleAsSent s now g).articleTimestamps k =
      if k = g then some now else s.articleTimestamps k := rfl

theorem markArticleAsSent_expiry (s : BotCache) (now : Int) (g : String) :
    (markArticleAsSent s now g).articleExpiry = s.articleExpiry := rfl

/-! ## Claim C1: dedup cache contract -/

/-- C1: after `markArticleAsSent` at time `T`, a `wasArticleSent` at `T2`
with `T2 - T ≤ articleExpiry` returns `true` (leaving the cache unchanged),
and one with `T2 - T > articleExpiry` returns `false` and removes the entry
from both maps; `markArticleAsSent` inserts or refreshes the entry with
timestamp `T`, and re-marking is idempotent up to refreshing the
timestamp. -/
theorem dedup_cache_contract (s : BotCache) (T T2 : Int) (id : String) :
    (markArticleAsSent s T id).articles id = some true
    ∧ (markArticleAsSent s T id).articleTimestamps id = some T
    ∧ (T2 - T ≤ s.articleExpiry →
        wasArticleSent (markArticleAsSent s T id) T2 id
          = (true, markArticleAsSent s T id))
    ∧ (T2 - T > s.articleExpiry →
        (wasArticleSent (markArticleAsSent s T id) T2 id).1 = false
        ∧ (wasArticleSent (markArticleAsSent s T id) T2 id).2.articles id = none
        ∧ (wasArticleSent (markArticleAsSent s T id) T2 id).2.articleTimestamps
            id = none)
    ∧ markArticleAsSent (markArticleAsSent s T id) T2 id
        = markArticleAsSent s T2 id := by
  refine ⟨by simp [markArticleAsSent], by simp [markArticleAsSent], ?_, ?_, ?_⟩
  · intro h
    exact wasArticleSent_of_unexpired _ _ T _ (by simp [markArticleAsSent])
      (by simp [markArticleAsSent]) (by rwa [markArticleAsSent_expiry])
  · intro h
    have hgt : T2 - ((markArticleAsSent s T id).articleTimestamps id).getD 0 >
        (markArticleAsSent s T id).articleExpiry := by
      simp [markArticleAsSent]
      omega
    unfold wasArticleSent
    rw [markArticleAsSent_articles]
    simp only [if_pos rfl]
    rw [if_pos hgt]
    exact ⟨rfl, by simp, by simp⟩
  · unfold markArticleAsSent
    refine congrArg₂ (fun f g => BotCache.mk f g s.articleExpiry) ?_ ?_ <;>
      funext k <;> by_cases hk : k = id <;> simp [hk]

/-- Witness for C1 at a fresh cache: the entry marked at time 0 is reported
sent at time 10 (within the 24 h retention) and reported unsent and deleted
at time 10^14 (beyond it). -/
theorem dedup_cache_contract_witness :
    wasArticleSent (markArticleAsSent newBotCache 0 "a") 10 "a"
      = (true, markArticleAsSent newBotCache 0 "a")
    ∧ (wasArticleSent (markArticleAsSent newBotCache 0 "a")
        100000000000000 "a").1 = false
    ∧ (wasArticleSent (markArticleAsSent newBotCache 0 "a")
        100000000000000 "a").2.articles "a" = none :=
  ⟨(dedup_cache_contract newBotCache 0 10 "a").2.2.1 (by decide),
   ((dedup_cache_contract newBotCache 0 100000000000000 "a").2.2.2.1
     (by decide)).1,
   ((dedup_cache_contract newBotCache 0 100000000000000 "a").2.2.2.1
     (by decide)).2.1⟩

theorem cleanup_articles_eq (s : BotCache) (now : Int) (k : String) :
    (cleanupExpiredArticles s now).articles k =
      match s.articleTimestamps k with
      | some t => if now - t > s.articleExpiry then none else s.articles k
      | none => s.articles k := rfl

theorem cleanup_timestamps_eq (s : BotCache) (now : Int) (k : String) :
    (cleanupExpiredArticles s now).articleTimestamps k =
      match s.articleTimestamps k with
      | some t => if now - t > s.articleExpiry then none else some t
      | none => none := rfl

theorem cleanup_articles_of_ts (s : BotCache) (now t : Int) (k : String)
    (h : s.articleTimestamps k = some t) :
    (cleanupExpiredArticles s now).articles k =
      if now - t > s.articleExpiry then none else s.articles k := by
  rw [cleanup_articles_eq, h]

theorem cleanup_timestamps_of_ts (s : BotCache) (now t : Int) (k : String)
    (h : s.articleTimestamps k = some t) :
    (cleanupExpiredArticles s now).articleTimestamps k =
      if now - t > s.articleExpiry then none else some t := by
  rw [cleanup_timestamps_eq, h]

theorem cleanup_articles_of_none (s : BotCache) (now : Int) (k : String)
    (h : s.articleTimestamps k = none) :
    (cleanupExpiredArticles s now).articles k = s.articles k := by
  rw [cleanup_articles_eq, h]

theorem cleanup_timestamps_of_none (s : BotCache) (now : Int) (k : String)
    (h : s.articleTimestamps k = none) :
    (cleanupExpiredArticles s now).articleTimestamps k = none := by
  rw [cleanup_timestamps_eq, h]

/-! ## Claim C6: sweep correctness -/

/-- The three-entry fixture of the sweep scenario: guids "a", "b", "c"
marked at times `T0`, `T0+1h`, `T0+25h` on the fresh cache. -/
def sweepMarked (T0 : Int) : BotCache :=
  markArticleAsSent (markArticleAsSent (markArticleAsSent newBotCache T0 "a")
    (T0 + nsPerHour) "b") (T0 + 25 * nsPerHour) "c"

/-- C6: `cleanupExpiredArticles` deletes exactly the entries with
`now - markedAt > articleExpiry` and keeps all others unchanged; in the
concrete scenario of entries marked at `T0`, `T0+1h`, `T0+25h` and a sweep
at `T0+26h` with the 24 h retention, only the `T0+25h` entry survives. -/
theorem sweep_correct (s : BotCache) (now t : Int) (g : String) (T0 : Int) :
    (s.articleTimestamps g = some t → now - t > s.articleExpiry →
       (cleanupExpiredArticles s now).articles g = none
       ∧ (cleanupExpiredArticles s now).articleTimestamps g = none)
    ∧ (s.articleTimestamps g = some t → now - t ≤ s.articleExpiry →
       (cleanupExpiredArticles s now).articles g = s.articles g
       ∧ (cleanupExpiredArticles s now).articleTimestamps g = some t)
    ∧ (s.articleTimestamps g = none →
       (cleanupExpiredArticles s now).articles g = s.articles g
       ∧ (cleanupExpiredArticles s now).articleTimestamps g = none)
    ∧ ((cleanupExpiredArticles (sweepMarked T0)
          (T0 + 26 * nsPerHour)).articles "a" = none
       ∧ (cleanupExpiredArticles (sweepMarked T0)
          (T0 + 26 * nsPerHour)).articleTimestamps "a" = none
       ∧ (cleanupExpiredArticles (sweepMarked T0)
          (T0 + 26 * nsPerHour)).articles "b" = none
       ∧ (cleanupExpiredArticles (sweepMarked T0)
          (T0 + 26 * nsPerHour)).articleTimestamps "b" = none
       ∧ (cleanupExpiredArticles (sweepMarked T0)
          (T0 + 26 * nsPerHour)).articles "c" = some true
       ∧ (cleanupExpiredArticles (sweepMarked T0)
          (T0 + 26 * nsPerHour)).articleTimestamps "c"
            = some (T0 + 25 * nsPerHour)
       ∧ ∀ g2, g2 ≠ "c" →
           (cleanupExpiredArticles (sweepMarked T0)
             (T0 + 26 * nsPerHour)).articles g2 = none
           ∧ (cleanupExpiredArticles (sweepMarked T0)
             (T0 + 26 * nsPerHour)).articleTimestamps g2 = none) := by
  have hts_a : (sweepMarked T0).articleTimestamps "a" = some T0 := rfl
  have hts_b : (sweepMarked T0).articleTimestamps "b"
      = some (T0 + nsPerHour) := rfl
  have hts_c : (sweepMarked T0).articleTimestamps "c"
      = some (T0 + 25 * nsPerHour) := rfl
  have hart_c : (sweepMarked T0).articles "c" = some true := rfl
  have hEx : (sweepMarked T0).articleExpiry = 24 * nsPerHour := rfl
  have h26 : T0 + 26 * nsPerHour - T0 > 24 * nsPerHour := by
    unfold nsPerHour; omega
  have h25 : T0 + 26 * nsPerHour - (T0 + nsPerHour) > 24 * nsPerHour := by
    unfold nsPerHour; omega
  have h1h : ¬ (T0 + 26 * nsPerHour - (T0 + 25 * nsPerHour)
      > 24 * nsPerHour) := by
    unfold nsPerHour; omega
  refine ⟨?_, ?_, ?_, ?_, ?_, ?_, ?_, ?_, ?_, ?_⟩
  · intro h hexp
    rw [cleanup_articles_of_ts s now t g h, cleanup_timestamps_of_ts s now t
      g h, if_pos hexp, if_pos hexp]
    exact ⟨rfl, rfl⟩
  · intro h hfresh
    rw [cleanup_articles_of_ts s now t g h, cleanup_timestamps_of_ts s now t
      g h, if_neg (by omega : ¬ now - t > s.articleExpiry),
      if_neg (by omega : ¬ now - t > s.articleExpiry)]
    exact ⟨rfl, rfl⟩
  · intro h
    rw [cleanup_articles_of_none s now g h, cleanup_timestamps_of_none s now
      g h]
    exact ⟨rfl, rfl⟩
  · rw [cleanup_articles_of_ts _ _ T0 "a" hts_a, hEx, if_pos h26]
  · rw [cleanup_timestamps_of_ts _ _ T0 "a" hts_a, hEx, if_pos h26]
  · rw [cleanup_articles_of_ts _ _ (T0 + nsPerHour) "b" hts_b, hEx,
      if_pos h25]
  · rw [cleanup_timestamps_of_ts _ _ (T0 + nsPerHour) "b" hts_b, hEx,
      if_pos h25]
  · rw [cleanup_articles_of_ts _ _ (T0 + 25 * nsPerHour) "c" hts_c, hEx,
      if_neg h1h, hart_c]
  · rw [cleanup_timestamps_of_ts _ _ (T0 + 25 * nsPerHour) "c" hts_c, hEx,
      if_neg h1h]
  · intro g2 hg2
    have hts : (sweepMarked T0).articleTimestamps g2 =
        if g2 = "b" then some (T0 + nsPerHour)
        else if g2 = "a" then some T0 else none := by
      unfold sweepMarked
      rw [markArticleAsSent_timestamps, if_neg hg2,
        markArticleAsSent_timestamps, markArticleAsSent_timestamps]
      rfl
    by_cases hbb : g2 = "b"
    · have hb2 : (sweepMarked T0).articleTimestamps g2
          = some (T0 + nsPerHour) := by rw [hts, if_pos hbb]
      rw [cleanup_articles_of_ts _ _ (T0 + nsPerHour) g2 hb2,
        cleanup_timestamps_of_ts _ _ (T0 + nsPerHour) g2 hb2, hEx,
        if_pos h25, if_pos h25]
      exact ⟨rfl, rfl⟩
    · by_cases haa : g2 = "a"
      · have ha2 : (sweepMarked T0).articleTimestamps g2 = some T0 := by
          rw [hts, if_neg hbb, if_pos haa]
        rw [cleanup_articles_of_ts _ _ T0 g2 ha2,
          cleanup_timestamps_of_ts _ _ T0 g2 ha2, hEx,
          if_pos h26, if_pos h26]
        exact ⟨rfl, rfl⟩
      · have hn : (sweepMarked T0).articleTimestamps g2 = none := by
          rw [hts, if_neg hbb, if_neg haa]
        rw [cleanup_articles_of_none _ _ g2 hn,
          cleanup_timestamps_of_none _ _ g2 hn]
        refine ⟨?_, rfl⟩
        unfold sweepMarked
        rw [markArticleAsSent_articles, if_neg hg2, markArticleAsSent_articles,
          if_neg hbb, markArticleAsSent_articles, if_neg haa]
        rfl

/-- Witness for C6: an entry marked at time 0 is removed by a sweep at
10^14 (beyond retention) and kept by a sweep at 5 (within retention). -/
theorem sweep_correct_witness :
    (cleanupExpiredArticles (markArticleAsSent newBotCache 0 "a")
       100000000000000).articleTimestamps "a" = none
    ∧ (cleanupExpiredArticles (markArticleAsSent newBotCache 0 "a")
       5).articleTimestamps "a" = some 0 :=
  ⟨((sweep_correct (markArticleAsSent newBotCache 0 "a") 100000000000000 0
      "a" 0).1 (by decide) (by decide)).2,
   ((sweep_correct (markArticleAsSent newBotCache 0 "a") 5 0 "a" 0).2.1
      (by decide) (by decide)).2⟩

/-! ## Claim C10: implicit cache-state invariant -/

/-- The implicit invariant: `articles` and `articleTimestamps` have the
same key set, and `articles` never stores `false`. -/
def CacheInv (s : BotCache) : Prop :=
  (∀ k, (s.articles k).isSome = (s.articleTimestamps k).isSome)
  ∧ ∀ k, s.articles k ≠ some false

/-- C10: the invariant holds for the fresh cache of `NewBot` and is
preserved by `wasArticleSent`, `markArticleAsSent` and
`cleanupExpiredArticles`. -/
theorem cache_state_invariant :
    CacheInv newBotCache
    ∧ (∀ s now g, CacheInv s → CacheInv (wasArticleSent s now g).2)
    ∧ (∀ s now g, CacheInv s → CacheInv (markArticleAsSent s now g))
    ∧ (∀ s now, CacheInv s → CacheInv (cleanupExpiredArticles s now)) := by
  refine ⟨⟨fun k => rfl, fun k => by simp [newBotCache]⟩, ?_, ?_, ?_⟩
  · rintro s now g ⟨h1, h2⟩
    unfold wasArticleSent
    cases hv : s.articles g with
    | none => exact ⟨h1, h2⟩
    | some b =>
      cases b with
      | false => exact ⟨h1, h2⟩
      | true =>
        by_cases hexp :
            now - ((s.articleTimestamps g).getD 0) > s.articleExpiry
        · rw [if_pos hexp]
          refine ⟨fun k => ?_, fun k => ?_⟩
          · by_cases hk : k = g <;> simp [hk, h1 k]
          · by_cases hk : k = g <;> simp [hk, h2 k]
        · rw [if_neg hexp]
          exact ⟨h1, h2⟩
  · rintro s now g ⟨h1, h2⟩
    refine ⟨fun k => ?_, fun k => ?_⟩
    · by_cases hk : k = g <;> simp [markArticleAsSent, hk, h1 k]
    · by_cases hk : k = g <;> simp [markArticleAsSent, hk, h2 k]
  · rintro s now ⟨h1, h2⟩
    refine ⟨fun k => ?_, fun k => ?_⟩
    · show ((cleanupExpiredArticles s now).articles k).isSome = _
      unfold cleanupExpiredArticles
      cases ht : s.articleTimestamps k with
      | none =>
        simp only [ht]
        have := h1 k
        rw [ht] at this
        simp_all
      | some t =>
        simp only [ht]
        by_cases hexp : now - t > s.articleExpiry
        · rw [if_pos hexp, if_pos hexp]
          rfl
        · rw [if_neg hexp, if_neg hexp]
          have := h1 k
          rw [ht] at this
          simp_all
    · show (cleanupExpiredArticles s now).articles k ≠ some false
      unfold cleanupExpiredArticles
      cases ht : s.articleTimestamps k with
      | none => simpa [ht] using h2 k
      | some t =>
        simp only [ht]
        by_cases hexp : now - t > s.articleExpiry
        · simp [if_pos hexp]
        · simpa [if_neg hexp] using h2 k

/-- Witness for C10: the invariant, transported along concrete mark, check
and sweep steps from the fresh cache. -/
theorem cache_state_invariant_witness :
    CacheInv (markArticleAsSent newBotCache 0 "a")
    ∧ CacheInv (wasArticleSent (markArticleAsSent newBotCache 0 "a") 5 "a").2
    ∧ CacheInv (cleanupExpiredArticles newBotCache 0) :=
  ⟨cache_state_invariant.2.2.1 newBotCache 0 "a" cache_state_invariant.1,
   cache_state_invariant.2.1 (markArticleAsSent newBotCache 0 "a") 5 "a"
     (cache_state_invariant.2.2.1 newBotCache 0 "a" cache_state_invariant.1),
   cache_state_invariant.2.2.2 newBotCache 0 cache_state_invariant.1⟩

/-! ## Pipeline lemmas -/

theorem markAllSent_nil (now : Int) (s : BotCache) :
    markAllSent now s [] = s := rfl

theorem markAllSent_cons (now : Int) (s : BotCache) (i : FeedItem)
    (l : List FeedItem) :
    markAllSent now s (i :: l) =
      markAllSent now (markArticleAsSent s now i.guid) l := rfl

theorem markAllSent_articles (now : Int) (l : List FeedItem) :
    ∀ (s : BotCache) (g : String),
    (markAllSent now s l).articles g =
      if g ∈ l.map FeedItem.guid then some true else s.articles g := by
  induction l with
  | nil => intro s g; simp [markAllSent_nil]
  | cons i l ih =>
    intro s g
    rw [markAllSent_cons, ih]
    by_cases hg : g = i.guid
    · by_cases hm : g ∈ l.map FeedItem.guid <;>
        simp [hg, hm, markArticleAsSent]
    · by_cases hm : g ∈ l.map FeedItem.guid <;>
        simp [hg, hm, markArticleAsSent, List.mem_cons]

theorem markAllSent_timestamps (now : Int) (l : List FeedItem) :
    ∀ (s : BotCache) (g : String),
    (markAllSent now s l).articleTimestamps g =
      if g ∈ l.map FeedItem.guid then some now
      else s.articleTimestamps g := by
  induction l with
  | nil => intro s g; simp [markAllSent_nil]
  | cons i l ih =>
    intro s g
    rw [markAllSent_cons, ih]
    by_cases hg : g = i.guid
    · by_cases hm : g ∈ l.map FeedItem.guid <;>
        simp [hg, hm, markArticleAsSent]
    · by_cases hm : g ∈ l.map FeedItem.guid <;>
        simp [hg, hm, markArticleAsSent, List.mem_cons]

theorem markAllSent_expiry (now : Int) (l : List FeedItem) :
    ∀ s : BotCache, (markAllSent now s l).articleExpiry = s.articleExpiry := by
  induction l with
  | nil => intro s; rfl
  | cons i l ih => intro s; rw [markAllSent_cons, ih]; rfl

theorem processItems_nil (now : Int) (s : BotCache) (acc : List Article) :
    processItems now s [] acc = (acc, s) := rfl

/-- A pass over entirely-new, pairwise-distinct entries collects the first
`10 - acc.length` of them in source order and marks exactly those. -/
theorem processItems_all_new (now : Int) :
    ∀ (items : List FeedItem) (s : BotCache) (acc : List Article),
    (∀ i ∈ items, s.articles i.guid = none) →
    (items.map FeedItem.guid).Nodup →
    acc.length < 10 →
    processItems now s items acc =
      (acc ++ ((items.take (10 - acc.length)).map (mkArticle now)),
       markAllSent now s (items.take (10 - acc.length))) := by
  intro items
  induction items with
  | nil => intro s acc hnew hnd hlen; simp [processItems_nil, markAllSent_nil]
  | cons item rest ih =>
    intro s acc hnew hnd hlen
    have hitem : s.articles item.guid = none :=
      hnew item (List.mem_cons_self item rest)
    have hskip : wasArticleSent s now item.guid = (false, s) :=
      wasArticleSent_of_none s now item.guid hitem
    show (let res := wasArticleSent s now item.guid
      if res.1 then processItems now res.2 rest acc
      else
        let s2 := markArticleAsSent res.2 now item.guid
        let acc2 := acc ++ [mkArticle now item]
        if acc2.length ≥ 10 then (acc2, s2)
        else processItems now s2 rest acc2) = _
    rw [hskip]
    simp only [Bool.false_eq_true, if_false, List.length_append,
      List.length_cons, List.length_nil]
    have htake : (item :: rest).take (10 - acc.length) =
        item :: rest.take (10 - (acc.length + 1)) := by
      have h1 : 10 - acc.length = (10 - (acc.length + 1)) + 1 := by omega
      rw [h1, List.take_succ_cons]
    by_cases hfull : acc.length + 1 ≥ 10
    · rw [if_pos (by omega : acc.length + (0 + 1) ≥ 10)]
      have h9 : acc.length = 9 := by omega
      have : 10 - acc.length = 1 := by omega
      rw [htake]
      have h0 : 10 - (acc.length + 1) = 0 := by omega
      rw [h0]
      simp [markAllSent_cons, markAllSent_nil]
    · rw [if_neg (by omega : ¬ acc.length + (0 + 1) ≥ 10)]
      have hnd' : (rest.map FeedItem.guid).Nodup := by
        rw [List.map_cons] at hnd
        exact hnd.of_cons
      have hni : item.guid ∉ rest.map FeedItem.guid := by
        rw [List.map_cons] at hnd
        exact (List.nodup_cons.mp hnd).1
      have hnew' : ∀ i ∈ rest,
          (markArticleAsSent s now item.guid).articles i.guid = none := by
        intro i hi
        rw [markArticleAsSent_articles]
        rw [if_neg (by
          intro hgg
          exact hni (hgg ▸ List.mem_map_of_mem FeedItem.guid hi))]
        exact hnew i (List.mem_cons_of_mem item hi)
      rw [ih (markArticleAsSent s now item.guid) (acc ++ [mkArticle now item])
        hnew' hnd' (by simpa using by omega : (acc ++ [mkArticle now item]).length < 10)]
      rw [htake]
      simp only [List.map_cons, markAllSent_cons, List.length_append,
        List.length_cons, List.length_nil, Nat.zero_add]
      simp [List.append_assoc]

/-- A pass over entries that are all reported as already sent (with the
check not mutating the cache) collects nothing and leaves the cache as
it was. -/
theorem processItems_all_seen (now : Int) :
    ∀ (items : List FeedItem) (s : BotCache) (acc : List Article),
    (∀ i ∈ items, wasArticleSent s now i.guid = (true, s)) →
    processItems now s items acc = (acc, s) := by
  intro items
  induction items with
  | nil => intro s acc h; rfl
  | cons item rest ih =>
    intro s acc h
    show (let res := wasArticleSent s now item.guid
      if res.1 then processItems now res.2 rest acc
      else
        let s2 := markArticleAsSent res.2 now item.guid
        let acc2 := acc ++ [mkArticle now item]
        if acc2.length ≥ 10 then (acc2, s2)
        else processItems now s2 rest acc2) = _
    rw [h item (List.mem_cons_self item rest)]
    simp only [if_true]
    exact ih s acc (fun i hi => h i (List.mem_cons_of_mem item hi))

/-! ## Claim C4: result cap -/

/-- An entry whose guid has an unexpired cache entry at time `now`; its
`wasArticleSent` check returns true without mutating the cache, so the
pipeline skips it. -/
def seenUnexpired (s : BotCache) (now : Int) (i : FeedItem) : Prop :=
  s.articles i.guid = some true
  ∧ ∃ t, s.articleTimestamps i.guid = some t ∧ now - t ≤ s.articleExpiry

/-- A pass over a mixed feed — every entry either never seen or
unexpired-already-sent, guids pairwise distinct — skips the already-sent
entries without counting them toward the cap and collects the first
`10 - acc.length` never-seen entries in source order, marking exactly
those. -/
theorem processItems_mixed (now : Int) :
    ∀ (items : List FeedItem) (s : BotCache) (acc : List Article),
    (∀ i ∈ items, s.articles i.guid = none ∨ seenUnexpired s now i) →
    (items.map FeedItem.guid).Nodup →
    acc.length < 10 →
    processItems now s items acc =
      (acc ++ (((items.filter
          (fun i => (s.articles i.guid).isNone)).take
            (10 - acc.length)).map (mkArticle now)),
       markAllSent now s ((items.filter
          (fun i => (s.articles i.guid).isNone)).take (10 - acc.length))) := by
  intro items
  induction items with
  | nil =>
    intro s acc helem hnd hlen
    simp [processItems_nil, markAllSent_nil]
  | cons item rest ih =>
    intro s acc helem hnd hlen
    have hnd' : (rest.map FeedItem.guid).Nodup := by
      rw [List.map_cons] at hnd
      exact hnd.of_cons
    have hni : item.guid ∉ rest.map FeedItem.guid := by
      rw [List.map_cons] at hnd
      exact (List.nodup_cons.mp hnd).1
    rcases helem item (List.mem_cons_self item rest) with hitem | hitem
    · have hskip : wasArticleSent s now item.guid = (false, s) :=
        wasArticleSent_of_none s now item.guid hitem
      show (let res := wasArticleSent s now item.guid
        if res.1 then processItems now res.2 rest acc
        else
          let s2 := markArticleAsSent res.2 now item.guid
          let acc2 := acc ++ [mkArticle now item]
          if acc2.length ≥ 10 then (acc2, s2)
          else processItems now s2 rest acc2) = _
      rw [hskip]
      simp only [Bool.false_eq_true, if_false, List.length_append,
        List.length_cons, List.length_nil]
      rw [List.filter_cons_of_pos (by rw [hitem]; rfl)]
      have htake : (item :: rest.filter
          (fun i => (s.articles i.guid).isNone)).take (10 - acc.length)
          = item :: (rest.filter
              (fun i => (s.articles i.guid).isNone)).take
                (10 - (acc.length + 1)) := by
        have h1 : 10 - acc.length = (10 - (acc.length + 1)) + 1 := by omega
        rw [h1, List.take_succ_cons]
      by_cases hfull : acc.length + 1 ≥ 10
      · rw [if_pos (by omega : acc.length + (0 + 1) ≥ 10)]
        rw [htake]
        have h0 : 10 - (acc.length + 1) = 0 := by omega
        rw [h0]
        simp [markAllSent_cons, markAllSent_nil]
      · rw [if_neg (by omega : ¬ acc.length + (0 + 1) ≥ 10)]
        have helem' : ∀ i ∈ rest,
            (markArticleAsSent s now item.guid).articles i.guid = none
            ∨ seenUnexpired (markArticleAsSent s now item.guid) now i := by
          intro i hi
          have hne : ¬ i.guid = item.guid := fun hgg =>
            hni (hgg ▸ List.mem_map_of_mem FeedItem.guid hi)
          rcases helem i (List.mem_cons_of_mem item hi) with h | h
          · exact Or.inl
              (by rw [markArticleAsSent_articles, if_neg hne]; exact h)
          · rcases h with ⟨hart, t, hts, hret⟩
            exact Or.inr
              ⟨by rw [markArticleAsSent_articles, if_neg hne]; exact hart,
               t, by rw [markArticleAsSent_timestamps, if_neg hne]; exact hts,
               by rw [markArticleAsSent_expiry]; exact hret⟩
        rw [ih (markArticleAsSent s now item.guid)
          (acc ++ [mkArticle now item]) helem' hnd'
          (by simpa using by omega :
            (acc ++ [mkArticle now item]).length < 10)]
        have hfilter : rest.filter (fun i =>
            ((markArticleAsSent s now item.guid).articles i.guid).isNone)
            = rest.filter (fun i => (s.articles i.guid).isNone) := by
          apply List.filter_congr
          intro i hi
          have hne : ¬ i.guid = item.guid := fun hgg =>
            hni (hgg ▸ List.mem_map_of_mem FeedItem.guid hi)
          rw [markArticleAsSent_articles, if_neg hne]
        rw [hfilter, htake]
        simp only [List.map_cons, markAllSent_cons, List.length_append,
          List.length_cons, List.length_nil, Nat.zero_add]
        simp [List.append_assoc]
    · rcases hitem with ⟨hart, t, hts, hret⟩
      have hseen : wasArticleSent s now item.guid = (true, s) :=
        wasArticleSent_of_unexpired s now t item.guid hart hts hret
      show (let res := wasArticleSent s now item.guid
        if res.1 then processItems now res.2 rest acc
        else
          let s2 := markArticleAsSent res.2 now item.guid
          let acc2 := acc ++ [mkArticle now item]
          if acc2.length ≥ 10 then (acc2, s2)
          else processItems now s2 rest acc2) = _
      rw [hseen]
      simp only [if_true]
      rw [List.filter_cons_of_neg (by rw [hart]; exact Bool.false_ne_true)]
      exact ih s acc (fun i hi => helem i (List.mem_cons_of_mem item hi))
        hnd' hlen

/-- C4: on a feed with pairwise-distinct guids (§3: ids are unique within
one feed source) whose entries are each either never seen or
unexpired-already-sent, with more than 10 never-seen entries, the pipeline
loop returns exactly the first 10 never-seen entries as articles, in
source order — entries skipped because their check returns true do not
count toward the cap — marks exactly those 10 guids as sent at the current
time, and leaves every other guid's cache state (including every skipped
entry's) untouched. -/
theorem cap_respected (s : BotCache) (now : Int) (items : List FeedItem)
    (hnd : (items.map FeedItem.guid).Nodup)
    (helem : ∀ i ∈ items, s.articles i.guid = none ∨ seenUnexpired s now i)
    (hlen : 10 < (items.filter
      (fun i => (s.articles i.guid).isNone)).length) :
    (processItems now s items []).1
      = ((items.filter (fun i => (s.articles i.guid).isNone)).take 10).map
          (mkArticle now)
    ∧ ((processItems now s items []).1).length = 10
    ∧ (∀ i ∈ (items.filter (fun i => (s.articles i.guid).isNone)).take 10,
        (processItems now s items []).2.articles i.guid = some true
        ∧ (processItems now s items []).2.articleTimestamps i.guid = some now)
    ∧ (∀ g, g ∉ ((items.filter
          (fun i => (s.articles i.guid).isNone)).take 10).map FeedItem.guid →
        (processItems now s items []).2.articles g = s.articles g
        ∧ (processItems now s items []).2.articleTimestamps g
            = s.articleTimestamps g) := by
  have h := processItems_mixed now items s [] helem hnd (by simp)
  rw [List.length_nil, Nat.sub_zero] at h
  rw [h]
  refine ⟨by simp, ?_, ?_, ?_⟩
  · simp
    omega
  · intro i hi
    have hg : i.guid ∈ ((items.filter
        (fun i => (s.articles i.guid).isNone)).take 10).map FeedItem.guid :=
      List.mem_map_of_mem FeedItem.guid hi
    rw [markAllSent_articles, markAllSent_timestamps, if_pos hg, if_pos hg]
    exact ⟨rfl, rfl⟩
  · intro g hg
    rw [markAllSent_articles, markAllSent_timestamps, if_neg hg, if_neg hg]
    exact ⟨rfl, rfl⟩

/-- An eleven-entry test feed with distinct guids and empty metadata. -/
def elevenItems : List FeedItem :=
  (List.range 11).map (fun n => ⟨"g" ++ toString n, "t", "l", [], none⟩)

/-- A cache in which guids "h0" and "h1" were marked as sent at time 0. -/
def seenCache : BotCache :=
  markArticleAsSent (markArticleAsSent newBotCache 0 "h0") 0 "h1"

/-- A thirteen-entry test feed: already-sent entries "h0" and "h1"
interspersed before and among eleven never-seen entries "g0".."g10". -/
def mixedItems : List FeedItem :=
  [⟨"h0", "t", "l", [], none⟩,
   ⟨"g0", "t", "l", [], none⟩, ⟨"g1", "t", "l", [], none⟩,
   ⟨"g2", "t", "l", [], none⟩,
   ⟨"h1", "t", "l", [], none⟩,
   ⟨"g3", "t", "l", [], none⟩, ⟨"g4", "t", "l", [], none⟩,
   ⟨"g5", "t", "l", [], none⟩, ⟨"g6", "t", "l", [], none⟩,
   ⟨"g7", "t", "l", [], none⟩, ⟨"g8", "t", "l", [], none⟩,
   ⟨"g9", "t", "l", [], none⟩, ⟨"g10", "t", "l", [], none⟩]

/-- Witness for C4 on the concrete mixed thirteen-entry feed: the two
already-sent entries are skipped without consuming cap slots, and the
first 10 of the 11 never-seen entries come back, with the skipped
entries' cache state untouched. -/
theorem cap_respected_witness :
    (processItems 5 seenCache mixedItems []).1
      = ((mixedItems.filter
          (fun i => (seenCache.articles i.guid).isNone)).take 10).map
            (mkArticle 5)
    ∧ ((processItems 5 seenCache mixedItems []).1).length = 10
    ∧ ((processItems 5 seenCache mixedItems []).2.articles "h0"
          = seenCache.articles "h0"
        ∧ (processItems 5 seenCache mixedItems []).2.articleTimestamps "h0"
          = seenCache.articleTimestamps "h0") :=
  ⟨(cap_respected seenCache 5 mixedItems (by decide)
      (by
        intro i hi
        fin_cases hi <;>
          first
          | exact Or.inl rfl
          | exact Or.inr ⟨rfl, 0, rfl, by decide⟩)
      (by decide)).1,
   (cap_respected seenCache 5 mixedItems (by decide)
      (by
        intro i hi
        fin_cases hi <;>
          first
          | exact Or.inl rfl
          | exact Or.inr ⟨rfl, 0, rfl, by decide⟩)
      (by decide)).2.1,
   (cap_respected seenCache 5 mixedItems (by decide)
      (by
        intro i hi
        fin_cases hi <;>
          first
          | exact Or.inl rfl
          | exact Or.inr ⟨rfl, 0, rfl, by decide⟩)
      (by decide)).2.2.2 "h0" (by decide)⟩

/-! ## Claim C2: no duplicate emission -/

/-- C2 counterexample: for the eleven-entry feed (all entries never seen,
distinct guids) the first pipeline pass over the fresh cache yields 10
articles, not all 11, and an immediately following second pass (same feed,
same time, well within retention) yields 1 article, not zero. -/
theorem no_duplicate_emission_counterexample :
    elevenItems.length = 11
    ∧ (elevenItems.map FeedItem.guid).Nodup
    ∧ (∀ i ∈ elevenItems, newBotCache.articles i.guid = none)
    ∧ ((processItems 0 newBotCache elevenItems []).1).length = 10
    ∧ ((processItems 0 (processItems 0 newBotCache elevenItems []).2
        elevenItems []).1).length = 1 :=
  ⟨by decide, by decide, fun i _ => rfl, by decide, by decide⟩

/-- C2 (amended to at most 10 entries): for a feed of `N ≤ 10` never-seen
entries with pairwise-distinct guids, a first pipeline pass yields all `N`
articles in source order, and a second pass over the same feed within the
retention window yields zero articles and leaves the cache unchanged. -/
theorem no_duplicate_emission (s : BotCache) (now now2 : Int)
    (items : List FeedItem)
    (hlen : items.length ≤ 10)
    (hnd : (items.map FeedItem.guid).Nodup)
    (hnew : ∀ i ∈ items, s.articles i.guid = none)
    (hret : now2 - now ≤ s.articleExpiry) :
    (processItems now s items []).1 = items.map (mkArticle now)
    ∧ processItems now2 (processItems now s items []).2 items []
        = ([], (processItems now s items []).2) := by
  have h := processItems_all_new now items s [] hnew hnd (by simp)
  rw [List.length_nil, Nat.sub_zero, List.take_of_length_le hlen] at h
  rw [h]
  refine ⟨by simp, ?_⟩
  apply processItems_all_seen
  intro i hi
  have hg : i.guid ∈ items.map FeedItem.guid :=
    List.mem_map_of_mem FeedItem.guid hi
  apply wasArticleSent_of_unexpired _ _ now
  · rw [markAllSent_articles, if_pos hg]
  · rw [markAllSent_timestamps, if_pos hg]
  · rw [markAllSent_expiry]
    exact hret

/-- Witness for C2 (amended) on a concrete three-entry feed. -/
theorem no_duplicate_emission_witness :
    (processItems 0 newBotCache (elevenItems.take 3) []).1
      = (elevenItems.take 3).map (mkArticle 0)
    ∧ processItems 5 (processItems 0 newBotCache (elevenItems.take 3) []).2
        (elevenItems.take 3) []
        = ([], (processItems 0 newBotCache (elevenItems.take 3) []).2) :=
  no_duplicate_emission newBotCache 0 5 (elevenItems.take 3) (by decide)
    (by decide) (fun i _ => rfl) (by decide)

/-! ## Claim C7: failure and empty-result behaviour -/

/-- C7: `getHabrInfoSecFeed` fails exactly when the feed fetch/parse fails;
on failure the error is propagated unchanged and the cache is untouched (no
guid checked or marked); on success it returns the loop's article list, and
an empty list is a valid non-error result — produced e.g. for an empty feed
or a feed whose entries are all unexpired-already-sent. -/
theorem fetch_failure_behaviour (s : BotCache) (now : Int)
    (fetched : Except String (List FeedItem)) :
    ((getHabrInfoSecFeed s now fetched).1.isOk = fetched.isOk)
    ∧ (∀ e, fetched = Except.error e →
        getHabrInfoSecFeed s now fetched = (Except.error e, s))
    ∧ (∀ items, fetched = Except.ok items →
        getHabrInfoSecFeed s now fetched
          = (Except.ok (processItems now s items []).1,
             (processItems now s items []).2))
    ∧ getHabrInfoSecFeed s now (Except.ok []) = (Except.ok [], s)
    ∧ (∀ items, (∀ i ∈ items, wasArticleSent s now i.guid = (true, s)) →
        getHabrInfoSecFeed s now (Except.ok items) = (Except.ok [], s)) := by
  refine ⟨?_, ?_, ?_, rfl, ?_⟩
  · cases fetched <;> rfl
  · intro e he
    rw [he]
    rfl
  · intro items hi
    rw [hi]
    rfl
  · intro items hseen
    show (Except.ok (processItems now s items []).1,
      (processItems now s items []).2) = _
    rw [processItems_all_seen now items s [] hseen]

/-- Witness for C7: a concrete failed fetch propagates its error with the
cache untouched, and a concrete all-seen feed gives the empty success. -/
theorem fetch_failure_behaviour_witness :
    getHabrInfoSecFeed newBotCache 0 (Except.error "fetch failed")
      = (Except.error "fetch failed", newBotCache)
    ∧ getHabrInfoSecFeed (markArticleAsSent newBotCache 0 "g0") 5
        (Except.ok [⟨"g0", "t", "l", [], none⟩])
      = (Except.ok [], markArticleAsSent newBotCache 0 "g0") :=
  ⟨(fetch_failure_behaviour newBotCache 0
      (Except.error "fetch failed")).2.1 "fetch failed" rfl,
   (fetch_failure_behaviour (markArticleAsSent newBotCache 0 "g0") 5
      (Except.ok [⟨"g0", "t", "l", [], none⟩])).2.2.2.2
      [⟨"g0", "t", "l", [], none⟩]
      (fun i hi => by
        rw [List.mem_singleton.mp hi]
        exact wasArticleSent_of_unexpired _ _ 0 _ rfl rfl (by decide))⟩

/-! ## Normalizer lemmas -/

theorem replGo_no_occur (old nw : List Char) :
    ∀ (fuel : Nat) (s : List Char), occursIn old s = false →
    replGo old nw fuel s = s := by
  intro fuel
  induction fuel with
  | zero => intro s h; cases s <;> rfl
  | succ n ih =>
    intro s h
    cases s with
    | nil => rfl
    | cons c rest =>
      rw [occursIn, Bool.or_eq_false_iff] at h
      show (if old.isPrefixOf (c :: rest) then
        nw ++ replGo old nw n (List.drop (old.length - 1) rest)
        else c :: replGo old nw n rest) = _
      rw [h.1]
      simp only [Bool.false_eq_true, if_false]
      rw [ih rest h.2]

theorem replaceAll_no_occur (s old nw : List Char)
    (h : occursIn old s = false) : replaceAll s old nw = s :=
  replGo_no_occur old nw s.length s h

theorem mem_of_isPrefixOf :
    ∀ (p s : List Char), p.isPrefixOf s = true → ∀ c ∈ p, c ∈ s := by
  intro p
  induction p with
  | nil => intro s h c hc; simp at hc
  | cons a p ih =>
    intro s h c hc
    cases s with
    | nil => simp [List.isPrefixOf] at h
    | cons b s2 =>
      rw [List.isPrefixOf, Bool.and_eq_true] at h
      rcases List.mem_cons.mp hc with hh | hc2
      · rw [hh, beq_iff_eq.mp h.1]
        exact List.mem_cons_self b s2
      · exact List.mem_cons_of_mem b (ih s2 h.2 c hc2)

theorem mem_of_occursIn (pat : List Char) :
    ∀ s : List Char, occursIn pat s = true → ∀ c ∈ pat, c ∈ s := by
  intro s
  induction s with
  | nil =>
    intro h c hc
    rw [occursIn, List.isEmpty_iff] at h
    rw [h] at hc
    simp at hc
  | cons d rest ih =>
    intro h c hc
    rw [occursIn, Bool.or_eq_true] at h
    rcases h with h | h
    · exact mem_of_isPrefixOf pat (d :: rest) h c hc
    · exact List.mem_cons_of_mem d (ih h c hc)

theorem occursIn_eq_false_of_lt (pat s : List Char) (c : Char)
    (hc : c ∈ pat) (hs : c ∉ s) : occursIn pat s = false := by
  cases h : occursIn pat s with
  | false => rfl
  | true => exact absurd (mem_of_occursIn pat s h c hc) hs

theorem fieldsAux_nospace :
    ∀ (s acc : List Char), (∀ c ∈ s, isGoSpace c = false) →
    (acc.isEmpty = false ∨ s ≠ []) →
    fieldsAux s acc = [acc.reverse ++ s] := by
  intro s
  induction s with
  | nil =>
    intro acc h hne
    rcases hne with h1 | h2
    · show (if acc.isEmpty then [] else [acc.reverse]) = _
      rw [h1]
      simp
    · exact absurd rfl h2
  | cons c rest ih =>
    intro acc h hne
    have hc : isGoSpace c = false := h c (List.mem_cons_self c rest)
    show (if isGoSpace c then
      (if acc.isEmpty then fieldsAux rest [] else acc.reverse :: fieldsAux rest [])
      else fieldsAux rest (c :: acc)) = _
    rw [hc]
    simp only [Bool.false_eq_true, if_false]
    rw [ih (c :: acc) (fun d hd => h d (List.mem_cons_of_mem c hd))
      (Or.inl rfl)]
    simp

theorem fields_nospace (s : List Char) (h : ∀ c ∈ s, isGoSpace c = false)
    (hne : s ≠ []) : fields s = [s] := by
  unfold fields
  rw [fieldsAux_nospace s [] h (Or.inr hne)]
  rfl

theorem intercalate_single (sep x : List Char) :
    List.intercalate sep [x] = x := by
  simp [List.intercalate]

theorem utf8Bytes_ascii (c : Char) (h : c.toNat < 128) :
    utf8Bytes c = [c.toNat] := by
  simp only [utf8Bytes]
  rw [if_pos h]

theorem utf8Encode_ascii :
    ∀ s : List Char, (∀ c ∈ s, c.toNat < 128) →
    utf8Encode s = s.map Char.toNat := by
  intro s
  induction s with
  | nil => intro h; rfl
  | cons c rest ih =>
    intro h
    show utf8Bytes c ++ utf8Encode rest = _
    rw [utf8Bytes_ascii c (h c (List.mem_cons_self c rest)),
      ih (fun d hd => h d (List.mem_cons_of_mem c hd)), List.map_cons]
    rfl

theorem utf8Encode_append (a b : List Char) :
    utf8Encode (a ++ b) = utf8Encode a ++ utf8Encode b := by
  simp [utf8Encode]

/-- The seven tag strings recognized by `trimSummary`. -/
def recognizedTags : List (List Char) :=
  ["<br>".data, "<p>".data, "</p>".data, "<strong>".data, "</strong>".data,
   "<em>".data, "</em>".data]

/-- On input containing none of the recognized tags, `trimSummary` is just
whitespace collapse followed by the byte-budget truncation. -/
theorem trimSummary_no_tags (s : List Char)
    (htags : ∀ tag ∈ recognizedTags, occursIn tag s = false) :
    trimSummary s =
      (if (utf8Encode (List.intercalate " ".data (fields s))).length > 200
       then (utf8Encode (List.intercalate " ".data (fields s))).take 200
         ++ utf8Encode "...".data
       else utf8Encode (List.intercalate " ".data (fields s))) := by
  have h1 := htags "<br>".data (by simp [recognizedTags])
  have h2 := htags "<p>".data (by simp [recognizedTags])
  have h3 := htags "</p>".data (by simp [recognizedTags])
  have h4 := htags "<strong>".data (by simp [recognizedTags])
  have h5 := htags "</strong>".data (by simp [recognizedTags])
  have h6 := htags "<em>".data (by simp [recognizedTags])
  have h7 := htags "</em>".data (by simp [recognizedTags])
  simp only [trimSummary]
  rw [replaceAll_no_occur _ _ _ h1, replaceAll_no_occur _ _ _ h2,
    replaceAll_no_occur _ _ _ h3, replaceAll_no_occur _ _ _ h4,
    replaceAll_no_occur _ _ _ h5, replaceAll_no_occur _ _ _ h6,
    replaceAll_no_occur _ _ _ h7]

/-! ## Claim C5: normalizer length bound -/

set_option maxRecDepth 100000 in
/-- C5 counterexample: the code measures the 200 budget in bytes, not
characters.  150 Cyrillic characters are 150 ≤ 200 characters but 300
UTF-8 bytes, contain no recognized tag and no whitespace (so whitespace
collapse leaves the string unchanged), yet `trimSummary` does not return
the string unchanged — it truncates. -/
theorem normalizer_length_bound_counterexample :
    (List.replicate 150 'я').length ≤ 200
    ∧ (∀ tag ∈ recognizedTags, occursIn tag (List.replicate 150 'я') = false)
    ∧ (∀ c ∈ List.replicate 150 'я', isGoSpace c = false)
    ∧ List.intercalate " ".data (fields (List.replicate 150 'я'))
        = List.replicate 150 'я'
    ∧ trimSummary (List.replicate 150 'я')
        ≠ utf8Encode (List.replicate 150 'я') :=
  ⟨by decide, by decide, by decide, by decide, by decide⟩

/-- C5 (amended: the budget is 200 UTF-8 bytes, as Go `len` counts, not
200 characters): a string with no recognized tags whose whitespace-collapsed
form fits in 200 bytes is returned unchanged after whitespace collapse, and
a 500-character plain-ASCII text (no whitespace, no tag-opening bracket)
yields its first 200 characters followed by the ellipsis marker `"..."`,
203 characters (= bytes) in total. -/
theorem normalizer_length_bound :
    (∀ s : List Char,
      (∀ tag ∈ recognizedTags, occursIn tag s = false) →
      (utf8Encode (List.intercalate " ".data (fields s))).length ≤ 200 →
      trimSummary s = utf8Encode (List.intercalate " ".data (fields s)))
    ∧ (∀ s : List Char, s.length = 500 →
      (∀ c ∈ s, c.toNat < 128 ∧ isGoSpace c = false ∧ c ≠ '<') →
      trimSummary s = utf8Encode (s.take 200 ++ "...".data)
      ∧ (trimSummary s).length = 203) := by
  constructor
  · intro s htags hsmall
    rw [trimSummary_no_tags s htags, if_neg (by omega)]
  · intro s hlen hplain
    have hlt : '<' ∉ s := fun hmem => ((hplain '<' hmem).2.2) rfl
    have htags : ∀ tag ∈ recognizedTags, occursIn tag s = false := by
      intro tag htag
      refine occursIn_eq_false_of_lt tag s '<' ?_ hlt
      fin_cases htag <;> decide
    have hnospace : ∀ c ∈ s, isGoSpace c = false :=
      fun c hc => (hplain c hc).2.1
    have hne : s ≠ [] := by
      intro hnil
      rw [hnil] at hlen
      simp at hlen
    have hcollapse : List.intercalate " ".data (fields s) = s := by
      rw [fields_nospace s hnospace hne, intercalate_single]
    have hascii : ∀ c ∈ s, c.toNat < 128 := fun c hc => (hplain c hc).1
    have henc : utf8Encode s = s.map Char.toNat := utf8Encode_ascii s hascii
    have hbytes : (utf8Encode s).length = 500 := by
      rw [henc, List.length_map, hlen]
    have hmain : trimSummary s
        = (s.map Char.toNat).take 200 ++ utf8Encode "...".data := by
      rw [trimSummary_no_tags s htags, hcollapse,
        if_pos (by omega : (utf8Encode s).length > 200), henc]
    constructor
    · rw [hmain, utf8Encode_append,
        utf8Encode_ascii (s.take 200)
          (fun c hc => hascii c (List.mem_of_mem_take hc)),
        List.map_take]
    · rw [hmain]
      simp only [List.length_append, List.length_take, List.length_map, hlen]
      rfl

set_option maxRecDepth 100000 in
/-- Witness for C5 (amended): a two-character tagless string is returned
as-is, and the 500-character ASCII string of letters a is truncated to
its 200-character prefix plus the ellipsis, 203 characters. -/
theorem normalizer_length_bound_witness :
    trimSummary "ab".data
      = utf8Encode (List.intercalate " ".data (fields "ab".data))
    ∧ trimSummary (List.replicate 500 'a')
        = utf8Encode ((List.replicate 500 'a').take 200 ++ "...".data)
    ∧ (trimSummary (List.replicate 500 'a')).length = 203 :=
  ⟨normalizer_length_bound.1 "ab".data (by decide) (by decide),
   (normalizer_length_bound.2 (List.replicate 500 'a') (by decide)
      (by decide)).1,
   (normalizer_length_bound.2 (List.replicate 500 'a') (by decide)
      (by decide)).2⟩

/-! ## Claim C8: normalizer tag substitution -/

/-- C8: paragraph open/close and line-break tags each become a single
space, bold and italic tags are removed with their content kept, whitespace
runs are collapsed to single spaces and leading/trailing whitespace is
trimmed; in particular the spec's example input yields exactly `"A B"`. -/
theorem normalizer_tag_substitution :
    trimSummary "<p>A</p><strong>B</strong>".data = utf8Encode "A B".data
    ∧ trimSummary "a<br>b".data = utf8Encode "a b".data
    ∧ trimSummary "<em>x</em>y".data = utf8Encode "xy".data
    ∧ trimSummary "  a   b  ".data = utf8Encode "a b".data :=
  ⟨by decide, by decide, by decide, by decide⟩

/-! ## Claim C3: at-most-once classification under races -/

/-- C3 counterexample: check-then-mark spans two separate critical sections
(`wasArticleSent` and `markArticleAsSent` each acquire and release the lock
independently), so in the interleaving where both cycles run their check
before either runs its mark, both cycles observe the previously-unseen id
as new (`resA = resB = some false`) and both complete — not exactly one. -/
theorem at_most_once_counterexample :
    (runRace "g" 0 0 newBotCache [Who.A, Who.B, Who.A, Who.B]).resA
      = some false
    ∧ (runRace "g" 0 0 newBotCache [Who.A, Who.B, Who.A, Who.B]).resB
      = some false
    ∧ (runRace "g" 0 0 newBotCache [Who.A, Who.B, Who.A, Who.B]).pcA = 2
    ∧ (runRace "g" 0 0 newBotCache [Who.A, Who.B, Who.A, Who.B]).pcB = 2 :=
  ⟨by decide, by decide, by decide, by decide⟩

/-- C3 (amended): each cache operation is individually atomic, but
check-then-mark is not a single critical section, so at-most-once
classification is only guaranteed when one cycle's check happens after the
other's mark: in the serialized schedule where cycle A checks and marks
before cycle B checks (within the retention window), exactly cycle A
observes the previously-unseen id as new and cycle B's check returns
true. -/
theorem at_most_once_serialized (s : BotCache) (g : String) (tA tB : Int)
    (hnew : s.articles g = none)
    (hret : tB - tA ≤ s.articleExpiry) :
    (runRace g tA tB s [Who.A, Who.A, Who.B, Who.B]).resA = some false
    ∧ (runRace g tA tB s [Who.A, Who.A, Who.B, Who.B]).resB = some true
    ∧ (runRace g tA tB s [Who.A, Who.A, Who.B, Who.B]).pcA = 2
    ∧ (runRace g tA tB s [Who.A, Who.A, Who.B, Who.B]).pcB = 2 := by
  have h1 : wasArticleSent s tA g = (false, s) :=
    wasArticleSent_of_none s tA g hnew
  have h2 : wasArticleSent (markArticleAsSent s tA g) tB g
      = (true, markArticleAsSent s tA g) :=
    wasArticleSent_of_unexpired _ _ tA _ (by simp [markArticleAsSent])
      (by simp [markArticleAsSent])
      (by rw [markArticleAsSent_expiry]; exact hret)
  have e1 : stepRace g tA tB ⟨s, 0, 0, none, none⟩ Who.A
      = ⟨s, 1, 0, some false, none⟩ := by
    simp [stepRace, h1]
  have e2 : stepRace g tA tB ⟨s, 1, 0, some false, none⟩ Who.A
      = ⟨markArticleAsSent s tA g, 2, 0, some false, none⟩ := by
    simp [stepRace]
  have e3 : stepRace g tA tB
      ⟨markArticleAsSent s tA g, 2, 0, some false, none⟩ Who.B
      = ⟨markArticleAsSent s tA g, 2, 2, some false, some true⟩ := by
    simp [stepRace, h2]
  have e4 : stepRace g tA tB
      ⟨markArticleAsSent s tA g, 2, 2, some false, some true⟩ Who.B
      = ⟨markArticleAsSent s tA g, 2, 2, some false, some true⟩ := by
    simp [stepRace]
  have hrun : runRace g tA tB s [Who.A, Who.A, Who.B, Who.B]
      = ⟨markArticleAsSent s tA g, 2, 2, some false, some true⟩ := by
    unfold runRace
    rw [List.foldl_cons, e1, List.foldl_cons, e2, List.foldl_cons, e3,
      List.foldl_cons, e4, List.foldl_nil]
  rw [hrun]
  exact ⟨rfl, rfl, rfl, rfl⟩

/-- Witness for C3 (amended) on the fresh cache with concrete times. -/
theorem at_most_once_serialized_witness :
    (runRace "g" 0 5 newBotCache [Who.A, Who.A, Who.B, Who.B]).resA
      = some false
    ∧ (runRace "g" 0 5 newBotCache [Who.A, Who.A, Who.B, Who.B]).resB
      = some true :=
  ⟨(at_most_once_serialized newBotCache "g" 0 5 rfl (by decide)).1,
   (at_most_once_serialized newBotCache "g" 0 5 rfl (by decide)).2.1⟩

/-! ## Claim C9: rate limiter -/

/-- C9: for a freshly constructed 1-token-per-second, burst-1 limiter, of
two `allow` calls made back-to-back less than one second apart exactly the
first returns true; and a trigger denied by the limiter is dropped silently
by `handleMessage` — no reply of any kind is produced and nothing is
queued, the limiter state merely advances. -/
theorem rate_limiter_exactly_one (t0 n1 n2 : Int) (text : String)
    (h0 : t0 ≤ n1) (h12 : n1 ≤ n2) (hlt : n2 - n1 < nsPerSec) :
    (allow (newLimiter t0) n1).1 = true
    ∧ (allow (allow (newLimiter t0) n1).2 n2).1 = false
    ∧ (handleMessage (allow (newLimiter t0) n1).2 n2 text).1 = none
    ∧ (handleMessage (allow (newLimiter t0) n1).2 n2 text).2
        = (allow (allow (newLimiter t0) n1).2 n2).2 := by
  have e1 : allow (newLimiter t0) n1 = (true, ⟨0, n1⟩) := by
    simp only [allow, newLimiter]
    rw [show min nsPerSec (nsPerSec + (n1 - t0)) = nsPerSec from by
      unfold nsPerSec; omega]
    rw [if_pos (le_refl nsPerSec)]
    simp
  have e2 : allow (⟨0, n1⟩ : Limiter) n2 = (false, ⟨n2 - n1, n2⟩) := by
    simp only [allow]
    rw [show min nsPerSec ((0 : Int) + (n2 - n1)) = n2 - n1 from by
      unfold nsPerSec at hlt ⊢; omega]
    rw [if_neg (by unfold nsPerSec at hlt ⊢; omega)]
  refine ⟨by rw [e1], by rw [e1]; rw [e2], ?_, ?_⟩
  · simp only [handleMessage]
    rw [e1]
    simp only
    rw [e2]
    simp
  · simp only [handleMessage]
    rw [e1]
    simp only
    rw [e2]
    simp

/-- Witness for C9 with construction at time 0 and calls at times 0 and 1
nanosecond. -/
theorem rate_limiter_exactly_one_witness :
    (allow (newLimiter 0) 0).1 = true
    ∧ (allow (allow (newLimiter 0) 0).2 1).1 = false
    ∧ (handleMessage (allow (newLimiter 0) 0).2 1 "/infosec").1 = none :=
  ⟨(rate_limiter_exactly_one 0 0 1 "/infosec" (by decide) (by decide)
      (by decide)).1,
   (rate_limiter_exactly_one 0 0 1 "/infosec" (by decide) (by decide)
      (by decide)).2.1,
   (rate_limiter_exactly_one 0 0 1 "/infosec" (by decide) (by decide)
      (by decide)).2.2.1⟩

end HabrBot
